import Mathlib

/-!
# Verification of the SimliOpenAI audio relay component

Shallow embedding of `src/app/SimliOpenAI.tsx`: the audio relay pipeline
(capture → resample → queue → dispatch) and the connection handlers that
pause/resume the speech session when the rendering endpoint drops.

Audio samples are modelled as rationals (the source works on finite
floats; NaN is excluded by the claims under verification), `Int16Array`
chunks as lists of integers.  The React component's refs and state hooks
become fields of `CompState`; every handler becomes a function
`CompState → CompState × List ExtCall`, where `ExtCall` records the
side-effecting calls made on the two endpoint clients and the host UI
callbacks, in program order.
-/

/-- An audio chunk: the contents of an `Int16Array` (line 47 of the source:
`audioChunkQueueRef : Int16Array[]`). -/
abbrev Chunk := List ℤ

/-- Clamp-and-scale of one microphone sample, from `onaudioprocess`
(lines 192–194):
`sample = Math.max(-1, Math.min(1, inputData[i])); audioData[i] = Math.floor(sample * 32767)`. -/
def micConvert (x : ℚ) : ℤ :=
  ⌊(max (-1) (min 1 x)) * 32767⌋

/-- Modelled from the spec: `downsampleAudio` is called at line 106 of the
source (`downsampleAudio(delta.audio, 24000, 16000)`) but its definition is
missing from `src/`.  Per §4.1 of the spec it performs linear-interpolation
resampling from `rateIn` to `rateOut`, with each output sample clamped to
the int16 range before truncation; an empty input yields an empty output
and it never raises. -/
def downsampleAudio (input : List ℚ) (rateIn rateOut : ℕ) : List ℤ :=
  let outLen := input.length * rateOut / rateIn
  (List.range outLen).map (fun i =>
    let pos : ℚ := (i * rateIn : ℚ) / (rateOut : ℚ)
    let i0 : ℕ := ⌊pos⌋.toNat
    let s0 := input.getD i0 0
    let s1 := input.getD (i0 + 1) s0
    let v := s0 + (pos - (i0 : ℚ)) * (s1 - s0)
    ⌊min 32767 (max (-32768) (v * 32767))⌋)

/-- Append to the tail of the chunk queue:
`audioChunkQueueRef.current.push(downsampledAudio)` (line 107). -/
def enqueueChunk (q : List Chunk) (c : Chunk) : List Chunk :=
  q ++ [c]

/-- Remove and return the head of the chunk queue, or signal empty:
`audioChunkQueueRef.current.shift()` (line 128). -/
def dequeueChunk (q : List Chunk) : Option Chunk × List Chunk :=
  match q with
  | [] => (none, [])
  | c :: rest => (some c, rest)

/-- One operation on the chunk queue. -/
inductive QOp where
  | enq (c : Chunk)
  | deq
  deriving Repr, DecidableEq

/-- Run a sequence of queue operations from an initial queue, returning the
final queue and the chunks returned by the dequeues, in order.  A dequeue
on an empty queue returns the empty signal and contributes no chunk. -/
def runQueue (q : List Chunk) : List QOp → List Chunk × List Chunk
  | [] => (q, [])
  | QOp.enq c :: ops => runQueue (enqueueChunk q c) ops
  | QOp.deq :: ops =>
    match dequeueChunk q with
    | (none, q') => runQueue q' ops
    | (some c, q') =>
      let r := runQueue q' ops
      (r.1, c :: r.2)

/-- The chunks enqueued by a sequence of operations, in order. -/
def enqueuedOf : List QOp → List Chunk
  | [] => []
  | QOp.enq c :: ops => c :: enqueuedOf ops
  | QOp.deq :: ops => enqueuedOf ops

/-- Payload of a `conversation.updated` event as read by
`handleConversationUpdate` (lines 101–115): `item.type`, `item.role`,
`delta.audio` (absent when `delta` has no audio), and the transcript of
`item.content[0]`. -/
structure ConvEvent where
  itemType : String
  role : String
  deltaAudio : Option (List ℚ)
  transcript : String
  deriving Repr, DecidableEq

/-- A side-effecting call on one of the two endpoint clients or on a host
UI callback, in program order.  `simli*` are calls on the module-level
`simliClient`; `oa*` are calls on `openAIClientRef.current` (emitted only
when that ref is non-null, mirroring the `?.` optional chaining);
`onStartCb`/`onCloseCb` are the `onStart()`/`onClose()` props;
`ctxClose` is `audioContextRef.current.close()`. -/
inductive ExtCall where
  | simliInitialize
  | simliStart
  | simliClose
  | simliSendAudioData (chunk : Chunk)
  | simliClearBuffer
  | oaUpdateSession
  | oaConnect
  | oaDisconnect
  | oaAppendInputAudio (frame : Chunk)
  | oaCancelResponse
  | oaPause
  | oaResume
  | ctxClose
  | onStartCb
  | onCloseCb
  deriving Repr, DecidableEq

/-- The component's mutable state: the React `useState` hooks and the refs
of `SimliOpenAI.tsx` (lines 29–48).  Nullable refs become `Bool` flags
(`openAIClient` = `openAIClientRef.current !== null`, and likewise
`audioContext`, `stream`, `processor`).  The chunk queue stores
`Option Chunk` so that the source's `if (audioChunk)` null test after
`shift()` (line 129) is faithfully represented. -/
structure CompState where
  isLoading : Bool
  isAvatarVisible : Bool
  error : String
  isRecording : Bool
  userMessage : String
  isSimliConnected : Bool
  isReconnectingSimli : Bool
  openAIClient : Bool
  audioContext : Bool
  stream : Bool
  processor : Bool
  audioChunkQueue : List (Option Chunk)
  isProcessingChunk : Bool
  deriving Repr, DecidableEq

/-- `pauseOpenAI` (lines 160–164): calls `pause()` on the OpenAI client if
it is non-null. -/
def pauseOpenAI (s : CompState) : List ExtCall :=
  if s.openAIClient then [ExtCall.oaPause] else []

/-- `resumeOpenAI` (lines 167–171): calls `resume()` on the OpenAI client
if it is non-null. -/
def resumeOpenAI (s : CompState) : List ExtCall :=
  if s.openAIClient then [ExtCall.oaResume] else []

/-- `handleSimliDisconnect` (lines 144–149): marks the Simli connection
down, raises the reconnecting indicator, and pauses the OpenAI session. -/
def handleSimliDisconnect (s : CompState) : CompState × List ExtCall :=
  ({ s with isSimliConnected := false, isReconnectingSimli := true }, pauseOpenAI s)

/-- `handleSimliReconnect` (lines 152–157): marks the Simli connection up,
clears the reconnecting indicator, and resumes the OpenAI session. -/
def handleSimliReconnect (s : CompState) : CompState × List ExtCall :=
  ({ s with isSimliConnected := true, isReconnectingSimli := false }, resumeOpenAI s)

/-- The recursion of `processNextAudioChunk` (lines 125–136), acting on the
queue and the busy flag: on a non-empty queue with the busy flag clear, set
the flag, `shift()` the head; if the head is non-null, send it, clear the
flag and recurse; a null head leaves the flag set (and the head already
removed).  Returns the final queue, the final busy flag, and the
`sendAudioData` calls in order. -/
def processNextAudioChunkAux : List (Option Chunk) → Bool →
    List (Option Chunk) × Bool × List ExtCall
  | [], busy => ([], busy, [])
  | c :: rest, busy =>
    if busy then (c :: rest, busy, [])
    else
      match c with
      | some chunk =>
        let r := processNextAudioChunkAux rest false
        (r.1, r.2.1, ExtCall.simliSendAudioData chunk :: r.2.2)
      | none => (rest, true, [])

/-- `processNextAudioChunk` (lines 125–136) as a state transformer. -/
def processNextAudioChunk (s : CompState) : CompState × List ExtCall :=
  let r := processNextAudioChunkAux s.audioChunkQueue s.isProcessingChunk
  ({ s with audioChunkQueue := r.1, isProcessingChunk := r.2.1 }, r.2.2)

/-- `handleConversationUpdate` (lines 101–115): an assistant message delta
with audio is downsampled 24000→16000 and pushed on the chunk queue, then
the dispatcher is kicked if idle; a user message updates the transcript. -/
def handleConversationUpdate (s : CompState) (ev : ConvEvent) :
    CompState × List ExtCall :=
  if ev.itemType = "message" ∧ ev.role = "assistant" then
    match ev.deltaAudio with
    | some audio =>
      let s1 := { s with audioChunkQueue :=
        s.audioChunkQueue ++ [some (downsampleAudio audio 24000 16000)] }
      if s1.isProcessingChunk then (s1, []) else processNextAudioChunk s1
    | none => (s, [])
  else if ev.itemType = "message" ∧ ev.role = "user" then
    ({ s with userMessage := ev.transcript }, [])
  else (s, [])

/-- `interruptConversation` (lines 118–122): clears the Simli client's
playback buffer and cancels the in-flight OpenAI response.  It does not
touch the local chunk queue. -/
def interruptConversation (s : CompState) : CompState × List ExtCall :=
  (s, ExtCall.simliClearBuffer ::
    (if s.openAIClient then [ExtCall.oaCancelResponse] else []))

/-- The `onaudioprocess` callback (lines 187–199): clamps and scales each
microphone sample to int16 and appends the frame to the OpenAI client's
input audio (optional chaining: only when the client is non-null). -/
def handleAudioProcess (s : CompState) (frame : List ℚ) :
    CompState × List ExtCall :=
  (s, if s.openAIClient then [ExtCall.oaAppendInputAudio (frame.map micConvert)] else [])

/-- `startRecording` (lines 174–209), success path: lazily creates the
audio context, acquires the microphone stream, wires the script processor,
and marks recording on. -/
def startRecording (s : CompState) : CompState :=
  { s with audioContext := true, stream := true, processor := true, isRecording := true }

/-- `initializeOpenAIClient` (lines 69–98), success path: creates the
client, pushes the session configuration (voice, server-VAD turn
detection, whisper-1 transcription), wires the conversation handlers,
connects, starts recording, and shows the avatar.  NOTE: this function is
defined in the source but never invoked anywhere in it. -/
def initializeOpenAIClient (s : CompState) : CompState × List ExtCall :=
  let s1 := { s with openAIClient := true }
  let s2 := startRecording s1
  ({ s2 with isAvatarVisible := true },
   [ExtCall.oaUpdateSession, ExtCall.oaConnect])

/-- `stopRecording` (lines 212–223): disconnects and drops the processor,
stops and drops the media stream tracks, and marks recording off.  Both
branches are guarded by null checks, so it is a no-op on already-released
resources. -/
def stopRecording (s : CompState) : CompState :=
  { s with processor := false, stream := false, isRecording := false }

/-- `handleStart` (lines 226–241): resets the error, fires `onStart()`,
initializes the Simli client and starts it; the `finally` block shows the
avatar and clears the loading flag.  It never calls
`initializeOpenAIClient` and never starts recording. -/
def handleStart (s : CompState) : CompState × List ExtCall :=
  ({ s with isLoading := false, error := "", isAvatarVisible := true },
   [ExtCall.onStartCb, ExtCall.simliInitialize, ExtCall.simliStart])

/-- `handleStop` (lines 244–257): clears loading and error, stops
recording, hides the avatar, closes the Simli client, disconnects the
OpenAI client if non-null, closes and drops the audio context if non-null,
and fires `onClose()`. -/
def handleStop (s : CompState) : CompState × List ExtCall :=
  let s1 := stopRecording { s with isLoading := false, error := "" }
  let s2 := { s1 with isAvatarVisible := false }
  let calls := ExtCall.simliClose ::
    (if s2.openAIClient then [ExtCall.oaDisconnect] else []) ++
    (if s2.audioContext then [ExtCall.ctxClose] else []) ++
    [ExtCall.onCloseCb]
  ({ s2 with audioContext := false }, calls)

/-- An event delivered to the component: the Simli client's
`disconnected`/`connected` events (wired in the `useEffect`, lines
259–267), a microphone buffer from the script processor, the OpenAI
client's `conversation.updated` / `conversation.interrupted` events, and
the user's start/stop button clicks. -/
inductive Event where
  | simliDisconnected
  | simliConnected
  | micFrame (frame : List ℚ)
  | convUpdate (ev : ConvEvent)
  | convInterrupted
  | userStart
  | userStop
  deriving Repr, DecidableEq

/-- Dispatch one event to its handler. -/
def step (s : CompState) : Event → CompState × List ExtCall
  | Event.simliDisconnected => handleSimliDisconnect s
  | Event.simliConnected => handleSimliReconnect s
  | Event.micFrame frame => handleAudioProcess s frame
  | Event.convUpdate ev => handleConversationUpdate s ev
  | Event.convInterrupted => interruptConversation s
  | Event.userStart => handleStart s
  | Event.userStop => handleStop s

/-- Run a sequence of events, concatenating the emitted calls. -/
def run (s : CompState) : List Event → CompState × List ExtCall
  | [] => (s, [])
  | e :: es =>
    let r1 := step s e
    let r2 := run r1.1 es
    (r2.1, r1.2 ++ r2.2)

/-- The audio payloads of the assistant-message deltas in an event list,
in order. -/
def deltasOf : List Event → List (List ℚ)
  | [] => []
  | Event.convUpdate ev :: es =>
    if ev.itemType = "message" ∧ ev.role = "assistant" then
      match ev.deltaAudio with
      | some audio => audio :: deltasOf es
      | none => deltasOf es
    else deltasOf es
  | _ :: es => deltasOf es

/-- The chunks passed to `sendAudioData` in a call list, in order. -/
def sentOf : List ExtCall → List Chunk
  | [] => []
  | ExtCall.simliSendAudioData c :: cs => c :: sentOf cs
  | _ :: cs => sentOf cs

/-- A convenient fully-initialized session state: Simli connected, OpenAI
client live, recording on, chunk queue empty and dispatcher idle (the
state the spec's scenarios start from). -/
def liveState : CompState :=
  { isLoading := false, isAvatarVisible := true, error := "",
    isRecording := true, userMessage := "...",
    isSimliConnected := true, isReconnectingSimli := false,
    openAIClient := true, audioContext := true, stream := true,
    processor := true, audioChunkQueue := [], isProcessingChunk := false }

/-- A `conversation.updated` payload carrying an assistant audio delta. -/
def assistantDelta (audio : List ℚ) : ConvEvent :=
  { itemType := "message", role := "assistant", deltaAudio := some audio,
    transcript := "" }

/- ## Theorems -/

/-- Helper: the clamp-then-truncate step of `downsampleAudio` always lands
in the int16 range. -/
theorem floor_clamp_int16_bounds (q : ℚ) :
    -32768 ≤ ⌊min 32767 (max (-32768) q)⌋ ∧
      ⌊min 32767 (max (-32768) q)⌋ ≤ 32767 := by
  constructor
  · apply Int.le_floor.mpr
    push_cast
    exact le_min (by norm_num) (le_max_left _ _)
  · have h : (min (32767 : ℚ) (max (-32768) q)) ≤ ((32767 : ℤ) : ℚ) := by
      push_cast
      exact min_le_left _ _
    calc ⌊min (32767 : ℚ) (max (-32768) q)⌋ ≤ ⌊((32767 : ℤ) : ℚ)⌋ :=
          Int.floor_le_floor h
      _ = 32767 := Int.floor_intCast _

/-- C10: for every microphone sample `x` (any rational, NaN excluded),
`floor(clamp(x,-1,1) * 32767)` — the conversion in `onaudioprocess` — lies
in `[-32767, 32767]`, so every outbound frame sample fits in int16 with no
wraparound. -/
theorem micConvert_int16_range (x : ℚ) :
    -32767 ≤ micConvert x ∧ micConvert x ≤ 32767 := by
  unfold micConvert
  have hl : (-1 : ℚ) ≤ max (-1) (min 1 x) := le_max_left _ _
  have hu : max (-1) (min 1 x) ≤ 1 := max_le (by norm_num) (min_le_left _ _)
  constructor
  · apply Int.le_floor.mpr
    push_cast
    nlinarith
  · have h : (max (-1) (min 1 x)) * 32767 ≤ ((32767 : ℤ) : ℚ) := by
      push_cast
      nlinarith
    calc ⌊(max (-1) (min 1 x)) * 32767⌋ ≤ ⌊((32767 : ℤ) : ℚ)⌋ :=
          Int.floor_le_floor h
      _ = 32767 := Int.floor_intCast _

/-- C7: the sample-conversion function is pure, total and deterministic
(it is a Lean function, so totality and determinism are by construction,
stated here as conjuncts): a zero-length input yields a zero-length
output, each output sample is clamped to the int16 range, and equal
inputs give equal outputs. -/
theorem downsampleAudio_pure_total_clamped (input : List ℚ) (rIn rOut : ℕ) :
    downsampleAudio [] rIn rOut = [] ∧
    (∀ y ∈ downsampleAudio input rIn rOut, -32768 ≤ y ∧ y ≤ 32767) ∧
    downsampleAudio input rIn rOut = downsampleAudio input rIn rOut := by
  refine ⟨by simp [downsampleAudio], ?_, rfl⟩
  intro y hy
  simp only [downsampleAudio, List.mem_map, List.mem_range] at hy
  obtain ⟨i, _, rfl⟩ := hy
  exact floor_clamp_int16_bounds _

/-- Witness for C7 at a concrete input: `0` is an output sample of
converting `[0, 0, 0]` from 24000 Hz to 16000 Hz, and it is in range. -/
theorem downsampleAudio_pure_total_clamped_witness :
    (0 : ℤ) ∈ downsampleAudio [0, 0, 0] 24000 16000 ∧
      (-32768 ≤ (0 : ℤ) ∧ (0 : ℤ) ≤ 32767) := by
  have hmem : (0 : ℤ) ∈ downsampleAudio [0, 0, 0] 24000 16000 := by
    norm_num [downsampleAudio, List.range_succ, min_def, max_def]
  exact ⟨hmem, (downsampleAudio_pure_total_clamped [0, 0, 0] 24000 16000).2.1 0 hmem⟩

/-- Helper: running queue operations from any initial queue, the dequeued
chunks followed by the leftover queue are the initial queue followed by
the enqueued chunks. -/
theorem runQueue_invariant (ops : List QOp) (q : List Chunk) :
    (runQueue q ops).2 ++ (runQueue q ops).1 = q ++ enqueuedOf ops := by
  induction ops generalizing q with
  | nil => simp [runQueue, enqueuedOf]
  | cons op ops ih =>
    cases op with
    | enq c => simp [runQueue, enqueuedOf, enqueueChunk, ih]
    | deq =>
      cases q with
      | nil => simpa [runQueue, dequeueChunk, enqueuedOf] using ih []
      | cons c rest => simp [runQueue, dequeueChunk, enqueuedOf, ih]

/-- C3: for every sequence of enqueue (`push`, line 107) and dequeue
(`shift`, line 128) operations starting from the empty queue, the
dequeued chunks followed by the chunks still in the queue are exactly the
enqueued chunks in order: strict FIFO, no chunk invented, none
duplicated, none lost. -/
theorem audio_chunk_queue_fifo (ops : List QOp) :
    (runQueue [] ops).2 ++ (runQueue [] ops).1 = enqueuedOf ops := by
  simpa using runQueue_invariant ops []

/-- C8: `stop()` releases the processor, the stream tracks and the audio
context, and is idempotent: a second `handleStop` (or one issued before
`start()` completed — the state is arbitrary) is a no-op on the state and
hits no unguarded resource (every release in the source is behind a null
check, so the embedding is total). -/
theorem handleStop_idempotent_releases (s : CompState) :
    (handleStop s).1.processor = false ∧ (handleStop s).1.stream = false ∧
    (handleStop s).1.audioContext = false ∧ (handleStop s).1.isRecording = false ∧
    (handleStop (handleStop s).1).1 = (handleStop s).1 :=
  ⟨rfl, rfl, rfl, rfl, rfl⟩

/-- Counterexample to C4: an interruption arriving with 3 chunks queued
leaves all 3 chunks in the outbound queue — they are not discarded. -/
theorem interrupt_leaves_queue_intact :
    ((interruptConversation { liveState with
        audioChunkQueue := [some [1], some [2], some [3]] }).1.audioChunkQueue =
      [some [1], some [2], some [3]]) ∧
    ((interruptConversation { liveState with
        audioChunkQueue := [some [1], some [2], some [3]] }).1.audioChunkQueue ≠ []) :=
  ⟨rfl, by decide⟩

/-- C4 (amended): `interruptConversation` clears the rendering endpoint's
playback buffer (`ClearBuffer`) and cancels the in-flight speech-endpoint
response (`cancelResponse`), but leaves the component state — in
particular the local outbound chunk queue — entirely unchanged. -/
theorem interrupt_clears_buffer_cancels_response (s : CompState) :
    (interruptConversation s).1 = s ∧
    (interruptConversation s).2 =
      ExtCall.simliClearBuffer ::
        (if s.openAIClient then [ExtCall.oaCancelResponse] else []) :=
  ⟨rfl, rfl⟩

/-- Helper: a drain entered with the busy flag clear on a queue of
non-null chunks empties the queue and leaves the busy flag clear. -/
theorem processNextAudioChunkAux_drains (q : List (Option Chunk))
    (hq : ∀ c ∈ q, c.isSome) :
    (processNextAudioChunkAux q false).1 = [] ∧
      (processNextAudioChunkAux q false).2.1 = false := by
  induction q with
  | nil => simp [processNextAudioChunkAux]
  | cons c rest ih =>
    cases c with
    | some chunk =>
      simpa [processNextAudioChunkAux] using
        ih (fun d hd => hq d (List.mem_cons_of_mem _ hd))
    | none =>
      exact absurd (hq none (List.mem_cons_self _ _)) (by simp)

/-- Counterexample to C9: a call to `processNextAudioChunk` on a state
whose queue holds one non-null chunk but whose busy flag is already set
returns with the busy flag still `true` (the guard at line 126 makes the
call a no-op), so not every call returns with the flag clear. -/
theorem drain_busy_entry_stays_busy :
    (processNextAudioChunk { liveState with
        audioChunkQueue := [some [0]],
        isProcessingChunk := true }).1.isProcessingChunk = true := rfl

/-- C9 (amended): every call to `processNextAudioChunk` on a state whose
stored elements are non-null chunks and whose busy flag is clear on entry
— as at every call site in the source — returns with
`isProcessingChunkRef.current` false, so a drain never leaves the
dispatcher marked busy. -/
theorem drain_clears_busy_flag (s : CompState)
    (hq : ∀ c ∈ s.audioChunkQueue, c.isSome)
    (hb : s.isProcessingChunk = false) :
    (processNextAudioChunk s).1.isProcessingChunk = false := by
  unfold processNextAudioChunk
  rw [hb]
  exact (processNextAudioChunkAux_drains s.audioChunkQueue hq).2

/-- Witness for C9 (amended) at a concrete state. -/
theorem drain_clears_busy_flag_witness :
    (∀ c ∈ ({ liveState with audioChunkQueue := [some [5]] } : CompState).audioChunkQueue,
        c.isSome) ∧
    (processNextAudioChunk { liveState with
        audioChunkQueue := [some [5]] }).1.isProcessingChunk = false :=
  ⟨by decide, drain_clears_busy_flag _ (by decide) rfl⟩

/-- Helper: running a concatenation of event lists runs them in sequence
and concatenates the emitted calls. -/
theorem run_append_calls (es1 es2 : List Event) (s : CompState) :
    run s (es1 ++ es2) =
      ((run (run s es1).1 es2).1, (run s es1).2 ++ (run (run s es1).1 es2).2) := by
  induction es1 generalizing s with
  | nil => simp [run]
  | cons e es ih => simp [run, ih]

/-- Helper: microphone frames do not change the component state; with a
live OpenAI client each frame is forwarded as one `appendInputAudio`
call. -/
theorem run_micFrames (s : CompState) (h : s.openAIClient = true)
    (frames : List (List ℚ)) :
    run s (frames.map Event.micFrame) =
      (s, frames.map (fun f => ExtCall.oaAppendInputAudio (f.map micConvert))) := by
  induction frames with
  | nil => rfl
  | cons f fs ih => simp [run, step, handleAudioProcess, h, ih]

/-- Counterexample to C1: starting from a live session, after the
`disconnected` event (status Disconnected/Reconnecting) a microphone
frame is still forwarded to the speech endpoint's `appendInputAudio` —
the `onaudioprocess` handler is not gated on connection status — so the
cycle `Connected → Disconnected → Reconnecting → Connected` does not keep
audio frames away from the speech endpoint. -/
theorem mic_frames_appended_while_disconnected :
    (run liveState [Event.simliDisconnected]).1.isSimliConnected = false ∧
    (run liveState [Event.simliDisconnected]).1.isReconnectingSimli = true ∧
    (step (run liveState [Event.simliDisconnected]).1 (Event.micFrame [0])).2 =
      [ExtCall.oaAppendInputAudio [0]] ∧
    (run liveState [Event.simliDisconnected, Event.micFrame [0],
        Event.simliConnected]).2 =
      [ExtCall.oaPause, ExtCall.oaAppendInputAudio [0], ExtCall.oaResume] := by
  refine ⟨rfl, rfl, ?_, ?_⟩ <;>
    norm_num [run, step, liveState, handleSimliDisconnect, handleSimliReconnect,
      handleAudioProcess, pauseOpenAI, resumeOpenAI, micConvert]

/-- C1 (amended): a `Connected → Disconnected → Reconnecting → Connected`
cycle performs exactly one `pause()` (the code's capture point, in
`handleSimliDisconnect`) and exactly one `resume()` (the restore point,
in `handleSimliReconnect`), in that order; however microphone frames
arriving while Disconnected/Reconnecting are still forwarded to
`appendInputAudio` — the outbound capture path is not gated on connection
status. -/
theorem reconnect_cycle_one_pause_one_resume (s : CompState)
    (frames : List (List ℚ)) (h : s.openAIClient = true) :
    (run s (Event.simliDisconnected ::
        (frames.map Event.micFrame ++ [Event.simliConnected]))).2 =
      ExtCall.oaPause ::
        (frames.map (fun f => ExtCall.oaAppendInputAudio (f.map micConvert)) ++
          [ExtCall.oaResume]) := by
  have hmid := run_micFrames
    { s with isSimliConnected := false, isReconnectingSimli := true } h frames
  simp only [h] at hmid
  simp [run, step, handleSimliDisconnect, pauseOpenAI, h,
    run_append_calls, hmid, handleSimliReconnect, resumeOpenAI]

/-- Witness for C1 (amended) at a concrete session state and one frame. -/
theorem reconnect_cycle_one_pause_one_resume_witness :
    liveState.openAIClient = true ∧
    (run liveState (Event.simliDisconnected ::
        ([[(0 : ℚ)]].map Event.micFrame ++ [Event.simliConnected]))).2 =
      ExtCall.oaPause ::
        ([[(0 : ℚ)]].map (fun f => ExtCall.oaAppendInputAudio (f.map micConvert)) ++
          [ExtCall.oaResume]) :=
  ⟨rfl, reconnect_cycle_one_pause_one_resume liveState [[0]] rfl⟩

/-- Helper: `sentOf` distributes over call-list concatenation. -/
theorem sentOf_append (a b : List ExtCall) :
    sentOf (a ++ b) = sentOf a ++ sentOf b := by
  induction a with
  | nil => rfl
  | cons c cs ih => cases c <;> simp [sentOf, ih]

/-- Helper: one step from a clean state (empty queue, idle dispatcher)
returns to a clean state, and its `sendAudioData` calls are exactly the
downsampled assistant deltas of that event. -/
theorem step_clean (s : CompState) (e : Event)
    (hq : s.audioChunkQueue = []) (hb : s.isProcessingChunk = false) :
    (step s e).1.audioChunkQueue = [] ∧ (step s e).1.isProcessingChunk = false ∧
    sentOf (step s e).2 =
      (deltasOf [e]).map (fun a => downsampleAudio a 24000 16000) := by
  cases e with
  | simliDisconnected =>
    by_cases h : s.openAIClient <;>
      simp [step, handleSimliDisconnect, pauseOpenAI, h, hq, hb, sentOf, deltasOf]
  | simliConnected =>
    by_cases h : s.openAIClient <;>
      simp [step, handleSimliReconnect, resumeOpenAI, h, hq, hb, sentOf, deltasOf]
  | micFrame f =>
    by_cases h : s.openAIClient <;>
      simp [step, handleAudioProcess, h, hq, hb, sentOf, deltasOf]
  | convInterrupted =>
    by_cases h : s.openAIClient <;>
      simp [step, interruptConversation, h, hq, hb, sentOf, deltasOf]
  | userStart => simp [step, handleStart, hq, hb, sentOf, deltasOf]
  | userStop =>
    by_cases h1 : s.openAIClient <;> by_cases h2 : s.audioContext <;>
      simp [step, handleStop, stopRecording, hq, hb, h1, h2, sentOf, deltasOf]
  | convUpdate ev =>
    by_cases hA : ev.itemType = "message" ∧ ev.role = "assistant"
    · cases hAudio : ev.deltaAudio with
      | some audio =>
        simp [step, handleConversationUpdate, hA, hAudio, hq, hb,
          processNextAudioChunk, processNextAudioChunkAux, sentOf, deltasOf]
      | none =>
        simp [step, handleConversationUpdate, hA, hAudio, hq, hb, sentOf, deltasOf]
    · by_cases hU : ev.itemType = "message" ∧ ev.role = "user"
      · simp [step, handleConversationUpdate, hA, hU, hq, hb, sentOf, deltasOf]
      · simp [step, handleConversationUpdate, hA, hU, hq, hb, sentOf, deltasOf]

/-- Helper: `deltasOf` splits off its head event. -/
theorem deltasOf_cons (e : Event) (es : List Event) :
    deltasOf (e :: es) = deltasOf [e] ++ deltasOf es := by
  cases e with
  | convUpdate ev =>
    by_cases hA : ev.itemType = "message" ∧ ev.role = "assistant"
    · cases hAudio : ev.deltaAudio <;> simp [deltasOf, hA, hAudio]
    · simp [deltasOf, hA]
  | simliDisconnected => simp [deltasOf]
  | simliConnected => simp [deltasOf]
  | micFrame f => simp [deltasOf]
  | convInterrupted => simp [deltasOf]
  | userStart => simp [deltasOf]
  | userStop => simp [deltasOf]

/-- Counterexample to C2: after a `disconnected` event, and before any
`connected` event, an assistant audio delta still triggers a
`sendAudioData` call on the rendering endpoint — dispatch is not gated on
connection status. -/
theorem sendAudioData_called_while_disconnected :
    (run liveState [Event.simliDisconnected]).1.isSimliConnected = false ∧
    (step (run liveState [Event.simliDisconnected]).1
        (Event.convUpdate (assistantDelta [0, 0, 0]))).2 =
      [ExtCall.simliSendAudioData [0, 0]] := by
  refine ⟨rfl, ?_⟩
  norm_num [run, step, liveState, handleSimliDisconnect, pauseOpenAI,
    handleConversationUpdate, assistantDelta, processNextAudioChunk,
    processNextAudioChunkAux, downsampleAudio, List.range_succ, min_def, max_def]

/-- C2 (amended): `sendAudioData` can still be called between a
`disconnected` event and the next `connected` event (the dispatcher is
not paused); what does hold is that over any event sequence from a clean
session state the chunks forwarded to the rendering endpoint are exactly
the downsampled assistant deltas, in their original (enqueue) order —
connection events neither drop, reorder, nor duplicate chunks. -/
theorem chunks_delivered_in_enqueue_order (s : CompState) (es : List Event)
    (hq : s.audioChunkQueue = []) (hb : s.isProcessingChunk = false) :
    sentOf (run s es).2 =
      (deltasOf es).map (fun a => downsampleAudio a 24000 16000) := by
  induction es generalizing s with
  | nil => simp [run, sentOf, deltasOf]
  | cons e es ih =>
    obtain ⟨h1, h2, h3⟩ := step_clean s e hq hb
    have htail := ih (step s e).1 h1 h2
    have hrun : (run s (e :: es)).2 = (step s e).2 ++ (run (step s e).1 es).2 := by
      simp [run]
    rw [hrun, sentOf_append, h3, htail, deltasOf_cons e es, List.map_append]

/-- Witness for C2 (amended): a delta enqueued before a disconnect and one
after the reconnect are both delivered, in order. -/
theorem chunks_delivered_in_enqueue_order_witness :
    liveState.audioChunkQueue = [] ∧ liveState.isProcessingChunk = false ∧
    sentOf (run liveState [Event.convUpdate (assistantDelta [0, 0, 0]),
        Event.simliDisconnected, Event.simliConnected,
        Event.convUpdate (assistantDelta [0, 0, 0])]).2 =
      (deltasOf [Event.convUpdate (assistantDelta [0, 0, 0]),
        Event.simliDisconnected, Event.simliConnected,
        Event.convUpdate (assistantDelta [0, 0, 0])]).map
        (fun a => downsampleAudio a 24000 16000) :=
  ⟨rfl, rfl, chunks_delivered_in_enqueue_order liveState _ rfl rfl⟩

/-- Helper: the dispatcher drain emits only `sendAudioData` calls, never
`onClose`. -/
theorem processNextAudioChunkAux_no_onClose (q : List (Option Chunk)) (b : Bool) :
    ExtCall.onCloseCb ∉ (processNextAudioChunkAux q b).2.2 := by
  induction q generalizing b with
  | nil => simp [processNextAudioChunkAux]
  | cons c rest ih =>
    cases b with
    | true => simp [processNextAudioChunkAux]
    | false =>
      cases c with
      | some chunk =>
        simp only [processNextAudioChunkAux, Bool.false_eq_true, if_false,
          List.mem_cons]
        push_neg
        exact ⟨by simp, ih false⟩
      | none => simp [processNextAudioChunkAux]

/-- Helper: no event handler except `handleStop` ever emits `onClose()`. -/
theorem step_no_onClose (s : CompState) (e : Event) (he : e ≠ Event.userStop) :
    ExtCall.onCloseCb ∉ (step s e).2 := by
  cases e with
  | userStop => exact absurd rfl he
  | simliDisconnected =>
    by_cases h : s.openAIClient <;> simp [step, handleSimliDisconnect, pauseOpenAI, h]
  | simliConnected =>
    by_cases h : s.openAIClient <;> simp [step, handleSimliReconnect, resumeOpenAI, h]
  | micFrame f =>
    by_cases h : s.openAIClient <;> simp [step, handleAudioProcess, h]
  | convInterrupted =>
    by_cases h : s.openAIClient <;> simp [step, interruptConversation, h]
  | userStart => simp [step, handleStart]
  | convUpdate ev =>
    by_cases hA : ev.itemType = "message" ∧ ev.role = "assistant"
    · cases hAudio : ev.deltaAudio with
      | some audio =>
        by_cases hbusy : s.isProcessingChunk <;>
          simp [step, handleConversationUpdate, hA, hAudio, hbusy,
            processNextAudioChunk, processNextAudioChunkAux_no_onClose]
      | none => simp [step, handleConversationUpdate, hA, hAudio]
    · by_cases hU : ev.itemType = "message" ∧ ev.role = "user"
      · simp [step, handleConversationUpdate, hA, hU]
      · simp [step, handleConversationUpdate, hA, hU]

/-- Counterexample to C5: a disconnect followed by a second failure signal
(no successful reconnect ever arrives) produces no `onClose()` call, no
terminal state, and no teardown — the component keeps recording and keeps
showing the reconnecting indicator, contradicting "onClose() is invoked
exactly once" on reconnect failure. -/
theorem reconnect_failure_no_teardown :
    (run liveState [Event.simliDisconnected, Event.simliDisconnected]).2 =
      [ExtCall.oaPause, ExtCall.oaPause] ∧
    (run liveState [Event.simliDisconnected, Event.simliDisconnected]).1.isReconnectingSimli
      = true ∧
    (run liveState [Event.simliDisconnected, Event.simliDisconnected]).1.isRecording
      = true ∧
    ExtCall.onCloseCb ∉
      (run liveState [Event.simliDisconnected, Event.simliDisconnected]).2 := by
  refine ⟨rfl, rfl, rfl, ?_⟩
  simp [run, step, liveState, handleSimliDisconnect, pauseOpenAI]

/-- C5 (amended): the component has no reconnect-failure handling at all —
no `Failed` state, no automatic reconnect attempts and no teardown path
triggered by connection events: over any event sequence that contains no
user-initiated stop, `onClose()` is never invoked. -/
theorem onClose_only_from_user_stop (s : CompState) (es : List Event)
    (h : Event.userStop ∉ es) :
    ExtCall.onCloseCb ∉ (run s es).2 := by
  induction es generalizing s with
  | nil => simp [run]
  | cons e es ih =>
    have he : e ≠ Event.userStop := by
      intro hcontra
      exact h (hcontra ▸ List.mem_cons_self _ _)
    have htail : Event.userStop ∉ es := fun hmem => h (List.mem_cons_of_mem _ hmem)
    simp only [run, List.mem_append]
    push_neg
    exact ⟨step_no_onClose s e he, ih (step s e).1 htail⟩

/-- Witness for C5 (amended) on the two-failure trace. -/
theorem onClose_only_from_user_stop_witness :
    Event.userStop ∉ [Event.simliDisconnected, Event.simliDisconnected] ∧
    ExtCall.onCloseCb ∉
      (run liveState [Event.simliDisconnected, Event.simliDisconnected]).2 :=
  ⟨by decide,
   onClose_only_from_user_stop liveState
     [Event.simliDisconnected, Event.simliDisconnected] (by decide)⟩

/-- C6 (divergence): `handleStart` only fires `onStart()`, initializes the
Simli client and starts it.  It never calls `updateSession`/`connect` on
the speech endpoint, leaves `openAIClientRef` as it was, and does not
start recording — `initializeOpenAIClient` (lines 69–98), which would do
all of that, is defined in the source but never invoked. -/
theorem handleStart_skips_speech_endpoint_init (s : CompState) :
    (handleStart s).2 = [ExtCall.onStartCb, ExtCall.simliInitialize, ExtCall.simliStart] ∧
    (handleStart s).1.openAIClient = s.openAIClient ∧
    (handleStart s).1.isRecording = s.isRecording ∧
    ExtCall.oaUpdateSession ∉ (handleStart s).2 ∧
    ExtCall.oaConnect ∉ (handleStart s).2 := by
  refine ⟨rfl, rfl, rfl, ?_, ?_⟩ <;> simp [handleStart]
